import Mathlib

/-!
Verification of the MCP stdio client core of picoclaw
(`pkg/mcp/client.go`, `pkg/mcp/tool.go`), shallowly embedded in Lean 4.

Bytes are modelled as `Nat`, JSON raw messages as `Option String`
(`none` = the field is absent / Go `nil`), and the pending-request
table as the list of its keys (request IDs), since the claims concern
only which entries exist and which slots receive a delivery.
-/

namespace Mcp

/-- Go `jsonRPCError` (client.go:34-37). -/
structure jsonRPCError where
  code : Int
  message : String
deriving DecidableEq, Repr

/-- Go `jsonRPCResponse` (client.go:26-32).  The struct has fields
`jsonrpc`, `id`, `result`, `error`, `method` and — deliberately —
no `params` field.  `result` is a `json.RawMessage`, modelled as
`Option String` (`none` when the JSON key is absent). -/
structure jsonRPCResponse where
  id : Int
  result : Option String
  error : Option jsonRPCError
  method : String
deriving DecidableEq, Repr

/-- The synthetic terminal error produced by `readLoop`'s deferred
cleanup (client.go:195-198): `{Code: -1, Message: "server closed"}`. -/
def serverClosedError : jsonRPCError := { code := -1, message := "server closed" }

/-! ### limitedBuffer (client.go:96-120) — C7 -/

/-- Go `limitedBuffer` (client.go:96-100): stderr capture up to a max
size, ring-buffer style.  The mutex is irrelevant to the data model. -/
structure limitedBuffer where
  data : List Nat
  max : Nat
deriving DecidableEq, Repr

/-- Go `newLimitedBuffer` (client.go:102-104). -/
def newLimitedBuffer (max : Nat) : limitedBuffer := { data := [], max := max }

/-- Go `limitedBuffer.Write` (client.go:106-114):
`b.data = append(b.data, p...); if len(b.data) > b.max { b.data = b.data[len(b.data)-b.max:] }`. -/
def limitedBuffer.write (b : limitedBuffer) (p : List Nat) : limitedBuffer :=
  if b.max < (b.data ++ p).length then
    { b with data := (b.data ++ p).drop ((b.data ++ p).length - b.max) }
  else { b with data := b.data ++ p }

/-- A sequence of writes, oldest first. -/
def limitedBuffer.writeAll (b : limitedBuffer) (ps : List (List Nat)) : limitedBuffer :=
  ps.foldl limitedBuffer.write b

/-- The most recent `m` bytes of a stream (all of it when shorter). -/
def lastBytes (m : Nat) (xs : List Nat) : List Nat := xs.drop (xs.length - m)

theorem lastBytes_length_le (m : Nat) (xs : List Nat) : (lastBytes m xs).length ≤ m := by
  simp only [lastBytes, List.length_drop]
  omega

theorem limitedBuffer.write_data (b : limitedBuffer) (p : List Nat) :
    (b.write p).data = lastBytes b.max (b.data ++ p) := by
  unfold limitedBuffer.write lastBytes
  split
  · rfl
  · rename_i hlt
    have h : b.data.length + p.length - b.max = 0 := by
      simp only [not_lt, List.length_append] at hlt
      omega
    simp [h]

theorem limitedBuffer.write_max (b : limitedBuffer) (p : List Nat) :
    (b.write p).max = b.max := by
  unfold limitedBuffer.write
  split <;> rfl

theorem limitedBuffer.writeAll_cons (b : limitedBuffer) (p : List Nat) (ps : List (List Nat)) :
    b.writeAll (p :: ps) = (b.write p).writeAll ps := rfl

theorem lastBytes_append_left (m : Nat) (a b : List Nat) (h : m ≤ b.length) :
    lastBytes m (a ++ b) = lastBytes m b := by
  simp only [lastBytes, List.length_append]
  rw [List.drop_append_eq_append_drop]
  have h3 : List.drop (a.length + b.length - m) a = [] :=
    List.drop_eq_nil_of_le (by omega)
  have h2 : a.length + b.length - m - a.length = b.length - m := by omega
  rw [h3, h2, List.nil_append]

/-- Re-truncating an already-truncated stream loses nothing:
the last `m` bytes of (last `m` bytes of `xs`, then `p`) are the
last `m` bytes of (`xs`, then `p`). -/
theorem lastBytes_append_lastBytes (m : Nat) (xs p : List Nat) :
    lastBytes m (lastBytes m xs ++ p) = lastBytes m (xs ++ p) := by
  by_cases h : xs.length ≤ m
  · have h0 : xs.length - m = 0 := by omega
    simp [lastBytes, h0]
  · have hk : (lastBytes m xs).length = m := by
      simp only [lastBytes, List.length_drop]; omega
    have hsplit : xs ++ p = xs.take (xs.length - m) ++ (lastBytes m xs ++ p) := by
      rw [← List.append_assoc]
      congr 1
      simp [lastBytes]
    have hle : m ≤ (lastBytes m xs ++ p).length := by
      rw [List.length_append, hk]; omega
    rw [hsplit, lastBytes_append_left m (xs.take (xs.length - m)) (lastBytes m xs ++ p) hle]

theorem lastBytes_idem (m : Nat) (xs : List Nat) :
    lastBytes m (lastBytes m xs) = lastBytes m xs := by
  have h := lastBytes_append_lastBytes m xs []
  simpa using h

theorem limitedBuffer.writeAll_data (ps : List (List Nat)) :
    ∀ (b : limitedBuffer), b.data = lastBytes b.max b.data →
      (b.writeAll ps).data = lastBytes b.max (b.data ++ ps.flatten) ∧
      (b.writeAll ps).max = b.max := by
  induction ps with
  | nil =>
    intro b hb
    refine ⟨?_, rfl⟩
    simpa [limitedBuffer.writeAll] using hb
  | cons p ps ih =>
    intro b hb
    have hw := b.write_data p
    have hm := b.write_max p
    have hinv : (b.write p).data = lastBytes (b.write p).max (b.write p).data := by
      rw [hw, hm, lastBytes_idem]
    have hih := ih (b.write p) hinv
    rw [limitedBuffer.writeAll_cons]
    refine ⟨?_, ?_⟩
    · rw [hih.1, hw, hm, lastBytes_append_lastBytes]
      simp [List.append_assoc]
    · rw [hih.2, hm]

/-- C7: for every sequence of writes starting from a fresh buffer, the
buffer holds exactly the most recent `max` bytes of the concatenated
stream, so its length never exceeds `max`. -/
theorem stderr_buffer_holds_most_recent_bytes (max : Nat) (ps : List (List Nat)) :
    ((newLimitedBuffer max).writeAll ps).data = lastBytes max ps.flatten ∧
    ((newLimitedBuffer max).writeAll ps).data.length ≤ max := by
  have h := limitedBuffer.writeAll_data ps (newLimitedBuffer max) (by simp [newLimitedBuffer, lastBytes])
  constructor
  · rw [h.1]; simp [newLimitedBuffer]
  · rw [h.1]
    simpa [newLimitedBuffer] using lastBytes_length_le max ([] ++ ps.flatten)

/-! ### Client state, reader loop and `call` (client.go:72-295) -/

/-- The parts of Go `Client` (client.go:72-93) the claims depend on:
the monotone ID counter `nextID`, the pending-request table (modelled by
its key set, as a list of registered request IDs) and the liveness flag. -/
structure ClientState where
  nextID : Int
  pending : List Int
  alive : Bool
deriving DecidableEq, Repr

/-- The deferred cleanup of `readLoop` (client.go:188-202), run when the
read loop exits (stream end or read failure): it stores `alive := false`,
closes `done`, then sends every pending slot the synthetic terminal error
`serverClosedError` and deletes the entry.  Returns the new state and the
list of deliveries `(id, response)` made to pending slots. -/
def readLoopCleanup (c : ClientState) : ClientState × List (Int × jsonRPCResponse) :=
  ({ c with alive := false, pending := [] },
   c.pending.map (fun id =>
     (id, { id := id, result := none, error := some serverClosedError, method := "" })))

theorem countP_map_eq_count (l : List Int) (f : Int → jsonRPCResponse) (id : Int) :
    ((l.map (fun i => (i, f i))).countP (fun d => d.1 == id)) = l.count id := by
  induction l with
  | nil => rfl
  | cons a l ih =>
    by_cases hai : a = id
    · subst hai
      simp [List.countP_cons, List.count_cons, ih]
    · simp [List.countP_cons, List.count_cons, ih, hai]

/-- C1: when the reader loop terminates, the Client is marked dead, the
pending table is emptied, every pending call receives exactly one
delivery, calls not pending receive none, and every delivery carries the
synthetic terminal error. -/
theorem client_death_fails_each_pending_once (c : ClientState) (h : c.pending.Nodup) :
    (readLoopCleanup c).1.alive = false ∧
    (readLoopCleanup c).1.pending = [] ∧
    (∀ id ∈ c.pending, ((readLoopCleanup c).2.countP (fun d => d.1 == id)) = 1) ∧
    (∀ id : Int, id ∉ c.pending →
      ((readLoopCleanup c).2.countP (fun d => d.1 == id)) = 0) ∧
    (∀ d ∈ (readLoopCleanup c).2, d.2.error = some serverClosedError) := by
  refine ⟨rfl, rfl, ?_, ?_, ?_⟩
  · intro id hid
    unfold readLoopCleanup
    rw [countP_map_eq_count]
    exact List.count_eq_one_of_mem h hid
  · intro id hid
    unfold readLoopCleanup
    rw [countP_map_eq_count]
    exact List.count_eq_zero_of_not_mem hid
  · intro d hd
    unfold readLoopCleanup at hd
    simp only [List.mem_map] at hd
    obtain ⟨i, _, rfl⟩ := hd
    rfl

theorem client_death_fails_each_pending_once_witness :
    ((readLoopCleanup { nextID := 3, pending := [1, 2, 3], alive := true }).2.countP
      (fun d => d.1 == 2)) = 1 :=
  (client_death_fails_each_pending_once
    { nextID := 3, pending := [1, 2, 3], alive := true } (by decide)).2.2.1 2 (by decide)

/-- Response routing in `readLoop` (client.go:232-242): under the pending
lock, look up the frame's ID; if present, remove the entry and deliver the
frame to that slot; otherwise the frame is dropped (no delivery, table
unchanged). -/
def routeFrame (pending : List Int) (resp : jsonRPCResponse) :
    List Int × Option (Int × jsonRPCResponse) :=
  if resp.id ∈ pending then (pending.erase resp.id, some (resp.id, resp))
  else (pending, none)

/-- C2: a frame carrying an ID is delivered to the pending slot with that
ID when one exists (and only that entry leaves the table); with no
matching entry the frame is dropped silently and the table is unchanged. -/
theorem frame_routing_by_id (pending : List Int) (resp : jsonRPCResponse)
    (h : pending.Nodup) :
    (resp.id ∈ pending →
      (routeFrame pending resp).2 = some (resp.id, resp) ∧
      resp.id ∉ (routeFrame pending resp).1 ∧
      ∀ j ∈ pending, j ≠ resp.id → j ∈ (routeFrame pending resp).1) ∧
    (resp.id ∉ pending → routeFrame pending resp = (pending, none)) := by
  constructor
  · intro hm
    refine ⟨by simp [routeFrame, hm], ?_, ?_⟩
    · simp only [routeFrame, if_pos hm]
      exact h.not_mem_erase
    · intro j hj hne
      simp only [routeFrame, if_pos hm]
      exact (List.mem_erase_of_ne hne).mpr hj
  · intro hm
    simp [routeFrame, hm]

theorem frame_routing_by_id_witness :
    (routeFrame [5, 7] { id := 5, result := none, error := none, method := "" }).2
      = some (5, { id := 5, result := none, error := none, method := "" }) :=
  ((frame_routing_by_id [5, 7]
    { id := 5, result := none, error := none, method := "" } (by decide)).1 (by decide)).1

/-- The `call` path in which the caller's deadline/cancellation fires
first (client.go:246-286, branch `case <-ctx.Done()`): if the client is
not alive, fail immediately without registering; otherwise allocate the
next ID, register its slot in the pending table, and on cancellation
delete exactly that entry again and return the cancellation error to this
caller alone. -/
def callCancelled (c : ClientState) : ClientState × Except String (Option String) :=
  if c.alive = false then (c, Except.error "mcp: server is not running")
  else
    ({ c with
        nextID := c.nextID + 1
        pending := ((c.nextID + 1) :: c.pending).erase (c.nextID + 1) },
      Except.error "context cancelled")

/-- C6: when a caller's deadline fires, only that caller's entry is
removed — the pending table returns to exactly its prior contents (same
size, every other in-flight entry still present) and the cancellation
error goes to this caller only. -/
theorem cancellation_removes_only_callers_entry (c : ClientState) (h : c.alive = true) :
    (callCancelled c).1.pending = c.pending ∧
    (callCancelled c).1.pending.length = c.pending.length ∧
    (∀ j ∈ c.pending, j ∈ (callCancelled c).1.pending) ∧
    (callCancelled c).2 = Except.error "context cancelled" := by
  have hfalse : ¬(c.alive = false) := by simp [h]
  have hp : (callCancelled c).1.pending = c.pending := by
    simp [callCancelled, hfalse, List.erase_cons_head]
  exact ⟨hp, by rw [hp], fun j hj => by rw [hp]; exact hj, by simp [callCancelled, hfalse]⟩

theorem cancellation_removes_only_callers_entry_witness :
    (callCancelled { nextID := 9, pending := [4, 8], alive := true }).1.pending = [4, 8] :=
  (cancellation_removes_only_callers_entry
    { nextID := 9, pending := [4, 8], alive := true } (by decide)).1

/-! ### C8: the cleanup's event order versus Reconnect -/

inductive CleanupEvent where
  | setAliveFalse : CleanupEvent
  | closeDone : CleanupEvent
  | failPending : Int → CleanupEvent
deriving DecidableEq, Repr

/-- The order of state changes performed by `readLoop`'s deferred cleanup
(client.go:189-201): it stores `alive := false`, then closes the `done`
channel, and only AFTER that fails each still-pending slot, mutating the
pending table.  `Reconnect` (client.go:425) unblocks as soon as `done` is
closed. -/
def readLoopCleanupTrace (pending : List Int) : List CleanupEvent :=
  CleanupEvent.setAliveFalse :: CleanupEvent.closeDone ::
    pending.map CleanupEvent.failPending

/-- C8 (refuting the claimed ordering): with one pending call (id 1), the
reader's cleanup raises the "done" signal strictly before it fails the
pending slot, so after `Reconnect` observes `done` the old reader still
mutates the pending table. -/
theorem done_signal_precedes_pending_cleanup :
    readLoopCleanupTrace [1] =
      [CleanupEvent.setAliveFalse, CleanupEvent.closeDone, CleanupEvent.failPending 1] := by
  rfl

/-! ### C9: the ID counter across calls and reconnects -/

inductive ClientOp where
  | doCall : ClientOp
  | doReconnect : ClientOp
deriving DecidableEq, Repr

/-- One client operation.  `doCall` allocates a fresh ID with
`c.nextID.Add(1)` and registers it (client.go:251, 266-269).
`doReconnect` models `Reconnect` → `startProcess` (client.go:416-438 and
141-172): `startProcess` reassigns `cmd`, `stdin`, `stdout`, `done`,
`pending` and `alive`, but `nextID` is not among the fields assigned, so
the counter survives across process generations. -/
def stepOp (c : ClientState) : ClientOp → ClientState × Option Int
  | ClientOp.doCall =>
      ({ c with nextID := c.nextID + 1, pending := (c.nextID + 1) :: c.pending },
       some (c.nextID + 1))
  | ClientOp.doReconnect =>
      ({ c with pending := [], alive := true }, none)

/-- The request IDs allocated, in order, by a sequence of operations. -/
def allocatedIDs (c : ClientState) : List ClientOp → List Int
  | [] => []
  | op :: ops =>
      match stepOp c op with
      | (c2, some id) => id :: allocatedIDs c2 ops
      | (c2, none) => allocatedIDs c2 ops

theorem allocatedIDs_lowerBound (ops : List ClientOp) :
    ∀ c : ClientState, ∀ id ∈ allocatedIDs c ops, c.nextID < id := by
  induction ops with
  | nil =>
    intro c id hid
    simp [allocatedIDs] at hid
  | cons op ops ih =>
    intro c id hid
    cases op with
    | doCall =>
      simp only [allocatedIDs, stepOp] at hid
      rcases List.mem_cons.mp hid with heq | hid2
      · omega
      · have := ih _ id hid2
        simp only at this
        omega
    | doReconnect =>
      simp only [allocatedIDs, stepOp] at hid
      exact ih { nextID := c.nextID, pending := [], alive := true } id hid

/-- C9: over any sequence of calls and reconnects on one Client, the
allocated request IDs are strictly increasing (hence pairwise distinct
across process generations): neither `Reconnect` nor `startProcess`
resets the counter. -/
theorem request_ids_strictly_increasing (c : ClientState) (ops : List ClientOp) :
    (allocatedIDs c ops).Pairwise (· < ·) ∧ (allocatedIDs c ops).Nodup := by
  have hpw : ∀ ops2 : List ClientOp, ∀ c2 : ClientState,
      (allocatedIDs c2 ops2).Pairwise (· < ·) := by
    intro ops2
    induction ops2 with
    | nil =>
      intro c2
      simp [allocatedIDs]
    | cons op ops2 ih =>
      intro c2
      cases op with
      | doCall =>
        simp only [allocatedIDs, stepOp]
        refine List.pairwise_cons.mpr ⟨?_, ih _⟩
        intro id hid
        have := allocatedIDs_lowerBound ops2 _ id hid
        simp only at this
        omega
      | doReconnect =>
        simp only [allocatedIDs, stepOp]
        exact ih _
  refine ⟨hpw ops c, ?_⟩
  exact (hpw ops c).imp (fun hlt => ne_of_lt hlt)

/-! ### C10: notification dispatch and the undecoded `params` field -/

/-- A wire frame as the server sends it.  A JSON-RPC notification carries
its payload under the `params` key; the Go decoder target
`jsonRPCResponse` (client.go:26-32) declares fields only for `id`,
`result`, `error` and `method`, so `params` is present on the wire but
never decoded. -/
structure RawFrame where
  id : Int
  result : Option String
  error : Option jsonRPCError
  method : String
  params : Option String
deriving DecidableEq, Repr

/-- Decoding a wire frame into `jsonRPCResponse` (client.go:219-222):
every declared field is copied; the frame's `params` is ignored. -/
def decodeFrame (f : RawFrame) : jsonRPCResponse :=
  { id := f.id, result := f.result, error := f.error, method := f.method }

inductive FrameAction where
  | notifyHandler : String → Option String → FrameAction
  | route : jsonRPCResponse → FrameAction
deriving DecidableEq, Repr

/-- Frame dispatch in `readLoop` (client.go:224-242): a frame with a
non-empty method is a notification and the handler is invoked with
`(resp.Method, resp.Result)`; otherwise the frame is routed by ID. -/
def dispatchFrame (f : RawFrame) : FrameAction :=
  if (decodeFrame f).method ≠ "" then
    FrameAction.notifyHandler (decodeFrame f).method (decodeFrame f).result
  else FrameAction.route (decodeFrame f)

/-- C10: for every notification frame the handler receives the frame's
`result` field as its params argument; since a standard notification puts
its payload under `params` (undecoded) and has no `result` key, the
handler receives `none` regardless of the `params` payload. -/
theorem notification_handler_gets_result_field (f : RawFrame) (h : f.method ≠ "") :
    dispatchFrame f = FrameAction.notifyHandler f.method f.result ∧
    (f.result = none → dispatchFrame f = FrameAction.notifyHandler f.method none) := by
  constructor
  · simp [dispatchFrame, decodeFrame, h]
  · intro hr
    simp [dispatchFrame, decodeFrame, h, hr]

theorem notification_handler_gets_result_field_witness :
    dispatchFrame ⟨0, none, none, "notifications/tools/list_changed", some "payload"⟩ =
      FrameAction.notifyHandler "notifications/tools/list_changed" none :=
  (notification_handler_gets_result_field
    ⟨0, none, none, "notifications/tools/list_changed", some "payload"⟩
    (by decide)).2 rfl

/-! ### ListTools pagination (client.go:330-359) — C3 -/

/-- Go `MCPToolInfo` (client.go:40-44); the input schema is opaque here. -/
structure MCPToolInfo where
  name : String
  description : String
  inputSchema : Option String
deriving DecidableEq, Repr

/-- Go `MCPToolsResult` (client.go:46-49): one page of `tools/list`. -/
structure MCPToolsResult where
  tools : List MCPToolInfo
  nextCursor : String
deriving DecidableEq, Repr

/-- The `ListTools` loop (client.go:334-356) run against the sequence of
pages the server returns, in arrival order: each iteration appends the
page's tools to the accumulator (`allTools = append(allTools,
toolsResult.Tools...)`); the loop breaks when the page's `NextCursor` is
empty, otherwise the next request carries the cursor and yields the next
page.  Needing a page the server never supplies is a call error (`none`). -/
def listToolsLoop : List MCPToolsResult → List MCPToolInfo → Option (List MCPToolInfo)
  | [], _ => none
  | page :: rest, acc =>
      if page.nextCursor = "" then some (acc ++ page.tools)
      else listToolsLoop rest (acc ++ page.tools)

/-- Go `Client.ListTools` (client.go:330-359), starting from an empty
accumulator. -/
def ListTools (pages : List MCPToolsResult) : Option (List MCPToolInfo) :=
  listToolsLoop pages []

theorem listToolsLoop_append (ps : List MCPToolsResult) (last : MCPToolsResult)
    (hps : ∀ p ∈ ps, p.nextCursor ≠ "") (hlast : last.nextCursor = "") :
    ∀ acc, listToolsLoop (ps ++ [last]) acc =
      some (acc ++ ((ps ++ [last]).map MCPToolsResult.tools).flatten) := by
  induction ps with
  | nil =>
    intro acc
    simp [listToolsLoop, hlast]
  | cons p ps ih =>
    intro acc
    have hp : p.nextCursor ≠ "" := hps p (List.mem_cons_self p ps)
    rw [List.cons_append]
    show (if p.nextCursor = "" then some (acc ++ p.tools)
        else listToolsLoop (ps ++ [last]) (acc ++ p.tools))
      = some (acc ++ ((p :: (ps ++ [last])).map MCPToolsResult.tools).flatten)
    rw [if_neg hp, ih (fun q hq => hps q (List.mem_cons_of_mem p hq)) (acc ++ p.tools)]
    simp [List.append_assoc]

/-- C3: when the server serves pages whose last (and only the last) page
carries an empty next cursor, `ListTools` returns the concatenation of
all pages' tool descriptors in arrival order. -/
theorem listTools_concatenates_pages (ps : List MCPToolsResult) (last : MCPToolsResult)
    (hps : ∀ p ∈ ps, p.nextCursor ≠ "") (hlast : last.nextCursor = "") :
    ListTools (ps ++ [last]) = some (((ps ++ [last]).map MCPToolsResult.tools).flatten) := by
  unfold ListTools
  rw [listToolsLoop_append ps last hps hlast []]
  simp

def toolA : MCPToolInfo := ⟨"a", "", none⟩
def toolB : MCPToolInfo := ⟨"b", "", none⟩
def toolC : MCPToolInfo := ⟨"c", "", none⟩
def toolD : MCPToolInfo := ⟨"d", "", none⟩

theorem listTools_concatenates_pages_witness :
    ListTools [⟨[toolA, toolB], "c2"⟩, ⟨[toolC, toolD], ""⟩] =
      some [toolA, toolB, toolC, toolD] := by
  have h := listTools_concatenates_pages [⟨[toolA, toolB], "c2"⟩] ⟨[toolC, toolD], ""⟩
    (by decide) rfl
  simpa using h

/-! ### CallTool content rendering (client.go:379-413) — C4 -/

/-- Go `MCPToolContent` (client.go:56-61). -/
structure MCPToolContent where
  type : String
  text : String
  data : String
  mimeType : String
deriving DecidableEq, Repr

/-- Go `MCPCallToolResult` (client.go:63-66). -/
structure MCPCallToolResult where
  content : List MCPToolContent
  isError : Bool
deriving DecidableEq, Repr

/-- Rendering of one content block (the `switch` in client.go:390-404):
`"text"` contributes its text; `"image"` a placeholder naming the mime
type (defaulted to `"image/unknown"` when empty) and the byte length of
the base64 payload; any other kind falls back to its `text` field when
non-empty, else contributes nothing. -/
def renderBlock (c : MCPToolContent) : String :=
  if c.type = "text" then c.text
  else if c.type = "image" then
    "[image: " ++ (if c.mimeType = "" then "image/unknown" else c.mimeType) ++ ", "
      ++ toString c.data.utf8ByteSize ++ " bytes base64]"
  else if c.text ≠ "" then c.text else ""

/-- The tail of `CallTool` (client.go:384-412): blocks render in order,
a `"\n"` separator is written before every block after the first, and if
the result is flagged `isError` the combined rendering is returned as the
detail of the `"mcp tool error: "` error rather than as the result. -/
def renderCallToolResult (r : MCPCallToolResult) : Except String String :=
  if r.isError then
    Except.error ("mcp tool error: " ++ String.intercalate "\n" (r.content.map renderBlock))
  else Except.ok (String.intercalate "\n" (r.content.map renderBlock))

/-- C4: content blocks render in order — text blocks concatenate with
newline separators, image blocks become a placeholder naming mime type
and payload size, unknown kinds fall back to their text field — and an
`isError` result returns the rendering as a tool-error detail; in
particular `isError:true` with content `[text "boom"]` yields the tool
error with detail exactly `"boom"`. -/
theorem callTool_rendering_and_error_flag (r : MCPCallToolResult) :
    (r.isError = true →
      renderCallToolResult r =
        Except.error ("mcp tool error: " ++ String.intercalate "\n" (r.content.map renderBlock))) ∧
    (r.isError = false →
      renderCallToolResult r = Except.ok (String.intercalate "\n" (r.content.map renderBlock))) ∧
    (∀ ts : List String,
      String.intercalate "\n"
          ((ts.map (fun t => (⟨"text", t, "", ""⟩ : MCPToolContent))).map renderBlock)
        = String.intercalate "\n" ts) ∧
    (∀ c : MCPToolContent, c.type = "image" →
      renderBlock c = "[image: " ++ (if c.mimeType = "" then "image/unknown" else c.mimeType)
        ++ ", " ++ toString c.data.utf8ByteSize ++ " bytes base64]") ∧
    (∀ c : MCPToolContent, c.type ≠ "text" → c.type ≠ "image" → renderBlock c = c.text) ∧
    renderCallToolResult ⟨[⟨"text", "boom", "", ""⟩], true⟩ =
      Except.error ("mcp tool error: " ++ "boom") := by
  refine ⟨?_, ?_, ?_, ?_, ?_, ?_⟩
  · intro h
    simp [renderCallToolResult, h]
  · intro h
    simp [renderCallToolResult, h]
  · intro ts
    congr 1
    induction ts with
    | nil => rfl
    | cons t ts ihts =>
      rw [List.map_cons, List.map_cons, ihts]
      congr 1
  · intro c h
    unfold renderBlock
    rw [h]
    rw [if_neg (by decide), if_pos rfl]
  · intro c h1 h2
    unfold renderBlock
    rw [if_neg h1, if_neg h2]
    by_cases ht : c.text = ""
    · simp [ht]
    · simp [ht]
  · rfl

theorem callTool_rendering_and_error_flag_witness :
    renderCallToolResult ⟨[⟨"text", "boom", "", ""⟩], true⟩ =
      Except.error ("mcp tool error: " ++ String.intercalate "\n"
        ([(⟨"text", "boom", "", ""⟩ : MCPToolContent)].map renderBlock)) :=
  (callTool_rendering_and_error_flag ⟨[⟨"text", "boom", "", ""⟩], true⟩).1 rfl

/-! ### RemoteTool.Execute retry policy (tool.go:62-93) — C5 -/

inductive CallOutcome where
  | ok : String → CallOutcome
  | err : String → CallOutcome
deriving DecidableEq, Repr

/-- The environment one `Execute` invocation runs against: liveness at
entry, outcome of the head reconnect (`none` = success), the first
call's outcome, liveness observed immediately after a first-call
failure, outcome of the mid-call reconnect, and the retried call's
outcome. -/
structure ExecuteEnv where
  aliveAtStart : Bool
  reconnectAtStart : Option String
  call1 : CallOutcome
  aliveAfterCall1 : Bool
  reconnectAfterFailure : Option String
  call2 : CallOutcome
deriving DecidableEq, Repr

/-- What an `Execute` invocation did: reconnect attempts, tool calls
issued, and the returned value. -/
structure ExecuteTrace where
  reconnects : Nat
  calls : Nat
  ret : Except String String
deriving Repr

/-- The call phase of `MCPTool.Execute` (tool.go:77-92): issue the call;
on success return the result; on failure, iff the client is observed
dead, attempt one reconnect — its failure returns the "crashed" error
combining both failures, its success is followed by exactly one retried
call whose outcome is returned as-is; on failure with the client still
alive, return the error as-is. -/
def executeCallPhase (sn : String) (env : ExecuteEnv) (reconnectsSoFar : Nat) : ExecuteTrace :=
  match env.call1 with
  | CallOutcome.ok r => ⟨reconnectsSoFar, 1, Except.ok r⟩
  | CallOutcome.err e =>
      if env.aliveAfterCall1 = false then
        match env.reconnectAfterFailure with
        | some re =>
            ⟨reconnectsSoFar + 1, 1,
              Except.error
                ("MCP server " ++ sn ++ " crashed: " ++ re ++ " (original: " ++ e ++ ")")⟩
        | none =>
            match env.call2 with
            | CallOutcome.ok r => ⟨reconnectsSoFar + 1, 2, Except.ok r⟩
            | CallOutcome.err e2 => ⟨reconnectsSoFar + 1, 2, Except.error e2⟩
      else ⟨reconnectsSoFar, 1, Except.error e⟩

/-- `MCPTool.Execute` (tool.go:62-93): a dead client at entry gets one
reconnect before the call phase (its failure is the "down and reconnect
failed" error and no call is issued). -/
def ExecuteModel (sn : String) (env : ExecuteEnv) : ExecuteTrace :=
  if env.aliveAtStart = false then
    match env.reconnectAtStart with
    | some e =>
        ⟨1, 0, Except.error ("MCP server " ++ sn ++ " is down and reconnect failed: " ++ e)⟩
    | none => executeCallPhase sn env 1
  else executeCallPhase sn env 0

theorem executeCallPhase_spec (sn : String) (env : ExecuteEnv) (k : Nat) :
    (executeCallPhase sn env k).calls ≤ 2 ∧
    (∀ e, env.call1 = CallOutcome.err e → env.aliveAfterCall1 = true →
      (executeCallPhase sn env k).ret = Except.error e ∧
      (executeCallPhase sn env k).calls = 1) ∧
    (∀ e re, env.call1 = CallOutcome.err e → env.aliveAfterCall1 = false →
      env.reconnectAfterFailure = some re →
      (executeCallPhase sn env k).ret =
        Except.error ("MCP server " ++ sn ++ " crashed: " ++ re ++ " (original: " ++ e ++ ")") ∧
      (executeCallPhase sn env k).calls = 1) ∧
    (∀ e, env.call1 = CallOutcome.err e → env.aliveAfterCall1 = false →
      env.reconnectAfterFailure = none →
      (executeCallPhase sn env k).calls = 2 ∧
      (∀ r, env.call2 = CallOutcome.ok r →
        (executeCallPhase sn env k).ret = Except.ok r) ∧
      (∀ e2, env.call2 = CallOutcome.err e2 →
        (executeCallPhase sn env k).ret = Except.error e2)) := by
  rcases hc : env.call1 with r | e <;>
    rcases ha : env.aliveAfterCall1 with _ | _ <;>
    rcases hr : env.reconnectAfterFailure with _ | re <;>
    rcases hc2 : env.call2 with r2 | e2 <;>
    simp [executeCallPhase, hc, ha, hr, hc2]

/-- C5: per `Execute` invocation, at most one retried call ever happens;
a first-call failure with the client observed dead triggers exactly one
reconnect-and-retry (a hard error combining both failures when the
reconnect fails, otherwise the retried call's outcome as-is); a
first-call failure with the client still alive is returned as-is with no
retry. -/
theorem execute_retry_policy (sn : String) (env : ExecuteEnv)
    (hphase : env.aliveAtStart = true ∨ env.reconnectAtStart = none) :
    (ExecuteModel sn env).calls ≤ 2 ∧
    (∀ e, env.call1 = CallOutcome.err e → env.aliveAfterCall1 = true →
      (ExecuteModel sn env).ret = Except.error e ∧
      (ExecuteModel sn env).calls = 1) ∧
    (∀ e re, env.call1 = CallOutcome.err e → env.aliveAfterCall1 = false →
      env.reconnectAfterFailure = some re →
      (ExecuteModel sn env).ret =
        Except.error ("MCP server " ++ sn ++ " crashed: " ++ re ++ " (original: " ++ e ++ ")") ∧
      (ExecuteModel sn env).calls = 1) ∧
    (∀ e, env.call1 = CallOutcome.err e → env.aliveAfterCall1 = false →
      env.reconnectAfterFailure = none →
      (ExecuteModel sn env).calls = 2 ∧
      (∀ r, env.call2 = CallOutcome.ok r → (ExecuteModel sn env).ret = Except.ok r) ∧
      (∀ e2, env.call2 = CallOutcome.err e2 →
        (ExecuteModel sn env).ret = Except.error e2)) := by
  cases h : env.aliveAtStart with
  | false =>
    have hr0 : env.reconnectAtStart = none := by
      rcases hphase with h2 | h2
      · rw [h2] at h; cases h
      · exact h2
    have hred : ExecuteModel sn env = executeCallPhase sn env 1 := by
      simp [ExecuteModel, h, hr0]
    rw [hred]
    exact executeCallPhase_spec sn env 1
  | true =>
    have hred : ExecuteModel sn env = executeCallPhase sn env 0 := by
      simp [ExecuteModel, h]
    rw [hred]
    exact executeCallPhase_spec sn env 0

/-- C5 counterexample: when the mid-call reconnect succeeds but the
retried call itself fails, `Execute` returns the retried call's error
alone (tool.go:87) — not a hard error combining both failures; the
combined `"crashed: ... (original: ...)"` error only arises when the
reconnect itself fails (tool.go:84-86). -/
theorem execute_retried_call_failure_not_combined :
    (ExecuteModel "srv"
      ⟨true, none, CallOutcome.err "origfail", false, none, CallOutcome.err "retryfail"⟩).ret
      = Except.error "retryfail" ∧
    ("retryfail" : String) ≠
      "MCP server " ++ "srv" ++ " crashed: " ++ "retryfail" ++ " (original: " ++ "origfail" ++ ")" :=
  ⟨rfl, by decide⟩

theorem execute_retry_policy_witness :
    (ExecuteModel "srv"
      ⟨true, none, CallOutcome.err "pipe", false, none, CallOutcome.ok "again"⟩).ret
      = Except.ok "again" :=
  ((execute_retry_policy "srv"
      ⟨true, none, CallOutcome.err "pipe", false, none, CallOutcome.ok "again"⟩
      (Or.inl rfl)).2.2.2 "pipe" rfl rfl rfl).2.1 "again" rfl

end Mcp
